import Mathlib

/-!
Shallow embedding of the SKOS graph query service and CSV import tool of the
Montessori Thesaurus repository (`app/skos/graph.py`, `scripts/import_csv.py`),
together with theorems settling the specification claims about them.

RDF terms are modelled as strings for IRIs and as `Lit` records for literals
(lexical text plus optional language tag); a graph is the insertion-ordered,
duplicate-free list of its triples, mirroring rdflib's set-of-triples store.
Python truthiness of rdflib values (an empty lexical form is falsy) is made
explicit wherever the source relies on it.
-/

namespace SkosApp

/-- An RDF literal: lexical text and optional language tag. -/
structure Lit where
  text : String
  lang : Option String
deriving DecidableEq, Repr

/-- An RDF node: an IRI reference or a literal. -/
inductive Node where
  | uri (s : String)
  | lit (l : Lit)
deriving DecidableEq, Repr

/-- An RDF triple (subject, predicate IRI, object). -/
structure Triple where
  subj : Node
  pred : String
  obj : Node
deriving DecidableEq, Repr

/-- A graph is its list of triples in storage order (rdflib keeps a set; we
keep insertion order and never insert a duplicate). -/
abbrev Graph := List Triple

def rdfType : String := "http://www.w3.org/1999/02/22-rdf-syntax-ns#type"

def skosConcept : String := "http://www.w3.org/2004/02/skos/core#Concept"

def skosConceptScheme : String := "http://www.w3.org/2004/02/skos/core#ConceptScheme"

def skosPrefLabel : String := "http://www.w3.org/2004/02/skos/core#prefLabel"

def skosAltLabel : String := "http://www.w3.org/2004/02/skos/core#altLabel"

def skosDefinition : String := "http://www.w3.org/2004/02/skos/core#definition"

def skosInScheme : String := "http://www.w3.org/2004/02/skos/core#inScheme"

def dctTitle : String := "http://purl.org/dc/terms/title"

/-- `g.subjects(p, o)` of rdflib: subjects of all triples with the given
predicate and object, in storage order. -/
def subjects (g : Graph) (p : String) (o : Node) : List Node :=
  g.filterMap (fun t => if t.pred = p ∧ t.obj = o then some t.subj else none)

/-- `g.objects(s, p)` of rdflib: objects of all triples with the given subject
and predicate, in storage order. -/
def objects (g : Graph) (s : Node) (p : String) : List Node :=
  g.filterMap (fun t => if t.subj = s ∧ t.pred = p then some t.obj else none)

/-- `str(node)` in Python: the IRI text, or a literal's lexical form. -/
def nodeStr : Node → String
  | .uri s => s
  | .lit l => l.text

/-- Python truthiness of an rdflib term (both URIRef and Literal are string
subclasses: truthy iff the underlying text is non-empty). -/
def pyTruthy : Node → Bool
  | .uri s => s ≠ ""
  | .lit l => l.text ≠ ""

/-- Python `a or b` on two optional node values, where `None` and any falsy
node count as false: yields `a`'s value when truthy, else `b` unchanged. -/
def pyOr (a b : Option Node) : Option Node :=
  match a with
  | some n => if pyTruthy n then some n else b
  | none => b

/-- The scan loop of `_select_lang_literal`: walks the candidates carrying the
langless fallback seen so far (`bl`); on the first literal tagged exactly
`lang` it stops, returning it as `best_exact`; non-literals are skipped. -/
def selectLoop (lang : String) : List Node → Option Node → Option Node × Option Node
  | [], bl => (none, bl)
  | n :: ns, bl =>
    match n with
    | .lit l =>
      if l.lang = some lang then (some n, bl)
      else if l.lang = none then selectLoop lang ns (some n)
      else selectLoop lang ns bl
    | .uri _ => selectLoop lang ns bl

/-- `_select_lang_literal(literals, language)`: after the scan, the Python
result expression `best_exact or best_langless or (literals[0] if literals
else None)` — note the `or` chain tests truthiness, not mere presence. -/
def selectLangLiteral (literals : List Node) (lang : String) : Option Node :=
  match selectLoop lang literals none with
  | (be, bl) => pyOr be (pyOr bl literals.head?)

/-- `_get_best_label`: the selector applied to the subject's prefLabels. -/
def getBestLabel (g : Graph) (s : Node) (lang : String) : Option String :=
  (selectLangLiteral (objects g s skosPrefLabel) lang).map nodeStr

/-- `_get_best_definition`: the selector applied to the subject's definitions. -/
def getBestDefinition (g : Graph) (s : Node) (lang : String) : Option String :=
  (selectLangLiteral (objects g s skosDefinition) lang).map nodeStr

/-- The best prefLabel / best definition projection of one subject, as built
by `list_concepts`. -/
structure ConceptSummary where
  iri : String
  pref_label : Option String
  definition : Option String
deriving DecidableEq, Repr

/-- One summary row of `list_concepts` for a subject. -/
def summarize (g : Graph) (lang : String) (s : Node) : ConceptSummary :=
  ⟨nodeStr s, getBestLabel g s lang, getBestDefinition g s lang⟩

/-- `list_concepts(limit, offset, language)`: enumerate the skos:Concept
subjects, report the total before pagination, and summarize the slice
`[offset : offset + limit]`. -/
def listConcepts (g : Graph) (lim off : Nat) (lang : String) :
    List ConceptSummary × Nat :=
  let allConcepts := subjects g rdfType (Node.uri skosConcept)
  (((allConcepts.drop off).take lim).map (summarize g lang), allConcepts.length)

/-- ASCII lowercasing, character by character (Python `str.lower` restricted
to ASCII). -/
def lowerStr (s : String) : String := String.mk (s.data.map Char.toLower)

/-- Python `needle in hay` on strings: substring containment. -/
def strContainsSub (hay needle : String) : Bool :=
  (List.range (hay.data.length + 1)).any (fun i => needle.data.isPrefixOf (hay.data.drop i))

/-- The pref/alt label literal candidates of a subject, in the order
`search_concepts` scans them (non-literal objects are skipped). -/
def candLits (g : Graph) (s : Node) : List Lit :=
  (objects g s skosPrefLabel ++ objects g s skosAltLabel).filterMap
    (fun n => match n with | .lit l => some l | .uri _ => none)

/-- The label-match test of `search_concepts` for one literal: language unset
or equal to the requested one, and the lowercased query occurs in the
lowercased text. -/
def labelMatches (lang lowerQ : String) (l : Lit) : Bool :=
  (l.lang = none ∨ l.lang = some lang) && strContainsSub (lowerStr l.text) lowerQ

/-- The first matching pref/alt label of a subject (the inner label loop of
`search_concepts`, which breaks on the first hit). -/
def matchedLabel (g : Graph) (s : Node) (q lang : String) : Option String :=
  ((candLits g s).find? (labelMatches lang (lowerStr q))).map Lit.text

/-- The concept loop of `search_concepts`: `count` is the number of results
collected so far; after each visit the loop breaks once `count ≥ limit`. -/
def searchLoop (g : Graph) (q lang : String) (lim : Nat) :
    List Node → Nat → List ConceptSummary
  | [], _ => []
  | s :: rest, count =>
    match matchedLabel g s q lang with
    | some lbl =>
      let cs : ConceptSummary := ⟨nodeStr s, some lbl, getBestDefinition g s lang⟩
      if count + 1 ≥ lim then [cs] else cs :: searchLoop g q lang lim rest (count + 1)
    | none =>
      if count ≥ lim then [] else searchLoop g q lang lim rest count

/-- `search_concepts(query, limit, language)`. -/
def searchConcepts (g : Graph) (q : String) (lim : Nat) (lang : String) :
    List ConceptSummary :=
  searchLoop g q lang lim (subjects g rdfType (Node.uri skosConcept)) 0

/-- `serialize(format)`: dispatch on the lowercased format name. The concrete
rdflib writers are abstracted as the argument `ser`, mapping an rdflib format
name and a graph to its text; the dispatch itself is what is embedded. -/
def serialize (ser : String → Graph → String) (g : Graph) (format : String) :
    Except String (String × String) :=
  let fmt := lowerStr format
  if fmt = "ttl" ∨ fmt = "turtle" then
    Except.ok (ser "turtle" g, "text/turtle")
  else if fmt = "jsonld" ∨ fmt = "json-ld" then
    Except.ok (ser "json-ld" g, "application/ld+json")
  else if fmt = "xml" ∨ fmt = "rdf" ∨ fmt = "rdfxml" ∨ fmt = "rdf/xml" then
    Except.ok (ser "xml" g, "application/rdf+xml")
  else if fmt = "nt" ∨ fmt = "ntriples" ∨ fmt = "n-triples" then
    Except.ok (ser "nt" g, "application/n-triples")
  else
    Except.error ("Unsupported format: " ++ format)

instance {ε α : Type} [DecidableEq ε] [DecidableEq α] : DecidableEq (Except ε α) :=
  fun a b =>
    match a, b with
    | Except.error e, Except.error f =>
      if h : e = f then isTrue (by rw [h]) else isFalse (by intro hc; cases hc; exact h rfl)
    | Except.error _, Except.ok _ => isFalse (by intro hc; cases hc)
    | Except.ok _, Except.error _ => isFalse (by intro hc; cases hc)
    | Except.ok x, Except.ok y =>
      if h : x = y then isTrue (by rw [h]) else isFalse (by intro hc; cases hc; exact h rfl)

/-- The mutable fields of `SKOSGraphService`: the cached snapshot and the
modification time recorded at the last successful load. -/
structure LoadState where
  graph : Option Graph
  lastMtime : Option Nat
deriving DecidableEq, Repr

/-- The file system as seen by one load attempt: the source file's
modification time (`none` when the file does not exist) and the outcome of
parsing it (irrelevant when it does not exist). -/
structure FileSys where
  mtime : Option Nat
  parseResult : Except String Graph

/-- `_ensure_loaded`: return early when a snapshot is cached under the same
timestamp; otherwise parse (an absent file yields the empty graph) and
install the result. A parse error propagates and leaves the state unchanged. -/
def ensureLoaded (fs : FileSys) (s : LoadState) : Except String Unit × LoadState :=
  if s.graph.isSome ∧ s.lastMtime = fs.mtime then (Except.ok (), s)
  else
    match fs.mtime with
    | some _ =>
      match fs.parseResult with
      | Except.error e => (Except.error e, s)
      | Except.ok g => (Except.ok (), ⟨some g, fs.mtime⟩)
    | none => (Except.ok (), ⟨some ([] : Graph), none⟩)

/-- `reload`: clear the snapshot and the recorded timestamp, then run
`_ensure_loaded` from the cleared state. -/
def reload (fs : FileSys) (_s : LoadState) : Except String Unit × LoadState :=
  ensureLoaded fs ⟨none, none⟩

/- The CSV import tool. -/

/-- One CSV row as `csv.DictReader` yields it, restricted to the recognized
columns (`none` when the column is absent from the file). -/
structure Row where
  prefLabel : Option String
  label : Option String
  term : Option String
  id : Option String
  definition : Option String
  desc : Option String
  altLabel : Option String
  alt : Option String
deriving DecidableEq, Repr

/-- Python `str.strip()` (ASCII whitespace): drop leading and trailing
whitespace characters. -/
def pyStrip (s : String) : String :=
  String.mk (((s.data.dropWhile Char.isWhitespace).reverse.dropWhile
    Char.isWhitespace).reverse)

/-- Python `str.replace(a, b)` for single-character arguments. -/
def pyReplaceChar (a b : Char) (s : String) : String :=
  String.mk (s.data.map (fun c => if c = a then b else c))

/-- Python `str.split(sep)` for a single-character separator, on the char
list: every occurrence splits, empty segments are kept. -/
def splitChar (sep : Char) : List Char → List (List Char)
  | [] => [[]]
  | c :: rest =>
    if c = sep then [] :: splitChar sep rest
    else
      match splitChar sep rest with
      | [] => [[c]]
      | h :: t => (c :: h) :: t

/-- Python `a or b or ... or ""` over optional cells: the first value that is
present and non-empty, else the empty string. -/
def firstTruthy : List (Option String) → String
  | [] => ""
  | some s :: rest => if s = "" then firstTruthy rest else s
  | none :: rest => firstTruthy rest

/-- The row's label: `(row.get("prefLabel") or row.get("label") or
row.get("term") or "").strip()`. -/
def labelOf (row : Row) : String :=
  pyStrip (firstTruthy [row.prefLabel, row.label, row.term])

/-- The row's definition cell: `(row.get("definition") or row.get("desc") or
"").strip()`. -/
def defnOf (row : Row) : String :=
  pyStrip (firstTruthy [row.definition, row.desc])

/-- The row's altLabel cell: `(row.get("altLabel") or row.get("alt") or
"").strip()`. -/
def altOf (row : Row) : String :=
  pyStrip (firstTruthy [row.altLabel, row.alt])

/-- UTF-8 encoding of one code point, as a list of byte values. -/
def utf8Bytes (c : Char) : List Nat :=
  let n := c.toNat
  if n < 0x80 then [n]
  else if n < 0x800 then [0xC0 + n / 0x40, 0x80 + n % 0x40]
  else if n < 0x10000 then
    [0xE0 + n / 0x1000, 0x80 + (n / 0x40) % 0x40, 0x80 + n % 0x40]
  else
    [0xF0 + n / 0x40000, 0x80 + (n / 0x1000) % 0x40, 0x80 + (n / 0x40) % 0x40,
     0x80 + n % 0x40]

/-- The bytes `urllib.parse.quote` leaves unescaped with `safe=""`: ASCII
letters, digits, and `_ . - ~`. -/
def isSafeByte (b : Nat) : Bool :=
  (0x41 ≤ b && b ≤ 0x5A) || (0x61 ≤ b && b ≤ 0x7A) || (0x30 ≤ b && b ≤ 0x39) ||
    b = 0x5F || b = 0x2E || b = 0x2D || b = 0x7E

/-- Uppercase hex digit. -/
def hexDigit (n : Nat) : Char :=
  if n < 10 then Char.ofNat (0x30 + n) else Char.ofNat (0x41 + n - 10)

/-- Percent-escape of one byte value. -/
def pctEscape (b : Nat) : String :=
  String.mk ['%', hexDigit (b / 16), hexDigit (b % 16)]

/-- `urllib.parse.quote(s, safe="")`: percent-encode every UTF-8 byte outside
the always-safe set, with uppercase hex. -/
def pyQuote (s : String) : String :=
  ((s.data.flatMap utf8Bytes).map
      (fun b => if isSafeByte b then String.singleton (Char.ofNat b) else pctEscape b)).foldl
    (fun a b => a ++ b) ""

/-- `slugify(value)`: `quote(value.strip().lower().replace(" ", "-"), safe="")`. -/
def slugify (value : String) : String :=
  pyQuote (pyReplaceChar ' ' '-' (lowerStr (pyStrip value)))

/-- Python `base_iri.rstrip("/")`. -/
def rstripSlash (s : String) : String :=
  String.mk (s.data.reverse.dropWhile (fun c => c = '/')).reverse

/-- The row's slug: `row.get("id") or slugify(label)` (an absent or empty id
cell falls back to the derived slug of the stripped label). -/
def slugOf (row : Row) : String :=
  match row.id with
  | some s => if s = "" then slugify (labelOf row) else s
  | none => slugify (labelOf row)

/-- The concept IRI minted for a row: `{base_iri.rstrip("/")}/concept/{slug}`. -/
def conceptIriOf (base : String) (row : Row) : String :=
  rstripSlash base ++ "/concept/" ++ slugOf row

/-- The scheme IRI: `{base_iri.rstrip("/")}/scheme`. -/
def schemeIriOf (base : String) : String :=
  rstripSlash base ++ "/scheme"

/-- The non-empty trimmed pipe-separated segments of the altLabel cell. -/
def altSegments (row : Row) : List String :=
  if altOf row = "" then []
  else ((splitChar '|' (altOf row).data).map (fun cs => pyStrip (String.mk cs))).filter
    (fun a => a ≠ "")

/-- The triples one valid row adds, in emission order: type, inScheme,
prefLabel, the optional definition, and one altLabel per segment. -/
def rowTriples (base lang : String) (row : Row) : List Triple :=
  [⟨Node.uri (conceptIriOf base row), rdfType, Node.uri skosConcept⟩,
   ⟨Node.uri (conceptIriOf base row), skosInScheme, Node.uri (schemeIriOf base)⟩,
   ⟨Node.uri (conceptIriOf base row), skosPrefLabel,
    Node.lit ⟨labelOf row, some lang⟩⟩] ++
  (if defnOf row = "" then []
   else [⟨Node.uri (conceptIriOf base row), skosDefinition,
          Node.lit ⟨defnOf row, some lang⟩⟩]) ++
  (altSegments row).map
    (fun a => ⟨Node.uri (conceptIriOf base row), skosAltLabel,
               Node.lit ⟨a, some lang⟩⟩)

/-- `g.add(t)` of rdflib on the ordered-set graph model: append unless the
triple is already present. -/
def addT (g : Graph) (t : Triple) : Graph :=
  if t ∈ g then g else g ++ [t]

/-- Processing of one CSV row: a row with an empty (trimmed) label is skipped;
otherwise its triples are added to the graph. -/
def processRow (base lang : String) (g : Graph) (row : Row) : Graph :=
  if labelOf row = "" then g else (rowTriples base lang row).foldl addT g

/-- `import_csv_to_skos`: emit the scheme resource with its title, then fold
the rows into the graph. -/
def importCsv (rows : List Row) (base lang : String) : Graph :=
  let sch := Node.uri (schemeIriOf base)
  let g0 := addT (addT [] ⟨sch, rdfType, Node.uri skosConceptScheme⟩)
    ⟨sch, dctTitle, Node.lit ⟨"Montessori Glossary Vocabulary", some lang⟩⟩
  rows.foldl (processRow base lang) g0

/-- The concept count the import tool reports:
`len(list(g.subjects(RDF.type, SKOS.Concept)))`. -/
def conceptCount (g : Graph) : Nat :=
  (subjects g rdfType (Node.uri skosConcept)).length

/- Helper lemmas about the selector. -/

theorem selectLoop_exact (lang : String) :
    ∀ (lits : List Lit) (bl : Option Node) (e : Lit),
      (lits.find? (fun l => l.lang = some lang)) = some e →
      ∃ bl', selectLoop lang (lits.map Node.lit) bl = (some (Node.lit e), bl') := by
  intro lits
  induction lits with
  | nil => intro bl e h; simp [List.find?] at h
  | cons l ls ih =>
    intro bl e h
    by_cases hl : l.lang = some lang
    · have : l = e := by
        have := List.find?_cons_of_pos (p := fun l => decide (l.lang = some lang))
          (l := ls) (a := l) (by simpa using hl)
        rw [this] at h
        exact Option.some.inj h
      subst this
      exact ⟨bl, by simp [selectLoop, hl]⟩
    · have hfind : ls.find? (fun l => l.lang = some lang) = some e := by
        have := List.find?_cons_of_neg (p := fun l => decide (l.lang = some lang))
          (l := ls) (a := l) (by simpa using hl)
        rw [this] at h
        exact h
      by_cases hn : l.lang = none
      · simpa [selectLoop, hl, hn] using ih (some (Node.lit l)) e hfind
      · simpa [selectLoop, hl, hn] using ih bl e hfind

theorem selectLoop_no_exact (lang : String) :
    ∀ (lits : List Lit) (bl : Option Node),
      (∀ l ∈ lits, l.lang ≠ some lang) →
      selectLoop lang (lits.map Node.lit) bl =
        (none, match (lits.filter (fun l => l.lang = none)).getLast? with
               | some b => some (Node.lit b)
               | none => bl) := by
  intro lits
  induction lits with
  | nil => intro bl _; simp [selectLoop]
  | cons l ls ih =>
    intro bl h
    have hl : l.lang ≠ some lang := h l (List.mem_cons_self l ls)
    have hrest : ∀ x ∈ ls, x.lang ≠ some lang := fun x hx => h x (List.mem_cons_of_mem l hx)
    by_cases hn : l.lang = none
    · have hfil : (l :: ls).filter (fun l => decide (l.lang = none)) =
          l :: ls.filter (fun l => decide (l.lang = none)) := by
        simp [List.filter, hn]
      rw [List.map_cons]
      rw [show selectLoop lang (Node.lit l :: ls.map Node.lit) bl =
            selectLoop lang (ls.map Node.lit) (some (Node.lit l)) by
        simp [selectLoop, hl, hn]]
      rw [ih (some (Node.lit l)) hrest, hfil]
      cases hcase : (ls.filter (fun l => decide (l.lang = none))).getLast? with
      | some b =>
        have : (l :: ls.filter (fun l => decide (l.lang = none))).getLast? = some b := by
          cases hfl : ls.filter (fun l => decide (l.lang = none)) with
          | nil => rw [hfl] at hcase; simp at hcase
          | cons x xs => rw [hfl] at hcase; rw [List.getLast?_cons_cons, hcase]
        rw [this]
      | none =>
        have hnil : ls.filter (fun l => decide (l.lang = none)) = [] := by
          cases hfl : ls.filter (fun l => decide (l.lang = none)) with
          | nil => rfl
          | cons x xs => rw [hfl] at hcase; simp [List.getLast?] at hcase
        rw [hnil]
        simp [List.getLast?]
    · have hfil : (l :: ls).filter (fun l => decide (l.lang = none)) =
          ls.filter (fun l => decide (l.lang = none)) := by
        simp [List.filter, hn]
      rw [List.map_cons]
      rw [show selectLoop lang (Node.lit l :: ls.map Node.lit) bl =
            selectLoop lang (ls.map Node.lit) bl by
        simp [selectLoop, hl, hn]]
      rw [ih bl hrest, hfil]

/-- C1 — counterexample. The candidate list `[⟨"x", no lang⟩, ⟨"", en⟩]` with
requested language "en" contains exactly one literal tagged "en" (the
empty-text one, which is also the first such match), yet the selector returns
the language-less literal "x", not the exact match: the Python `or` chain
treats the empty-text exact match as falsy. -/
theorem C1_counterexample :
    (([⟨"x", none⟩, ⟨"", some "en"⟩] : List Lit).find?
        (fun l => l.lang = some "en") = some ⟨"", some "en"⟩) ∧
    selectLangLiteral (([⟨"x", none⟩, ⟨"", some "en"⟩] : List Lit).map Node.lit) "en" =
      some (Node.lit ⟨"x", none⟩) ∧
    selectLangLiteral (([⟨"x", none⟩, ⟨"", some "en"⟩] : List Lit).map Node.lit) "en" ≠
      some (Node.lit ⟨"", some "en"⟩) := by
  refine ⟨by decide, by decide, by decide⟩

/-- C1 (amended): if the first literal whose language tag exactly equals the
requested language has non-empty text, the selector returns that literal (the
scan stops at the first exact match); an empty-text exact match falls through
the truthiness test and a fallback may be returned instead. -/
theorem C1_exact_first (lits : List Lit) (L : String) (e : Lit)
    (hfind : lits.find? (fun l => l.lang = some L) = some e)
    (hne : e.text ≠ "") :
    selectLangLiteral (lits.map Node.lit) L = some (Node.lit e) := by
  obtain ⟨bl', hloop⟩ := selectLoop_exact L lits none e hfind
  unfold selectLangLiteral
  rw [hloop]
  simp [pyOr, pyTruthy, hne]

/-- C1 — witness of the amended theorem on the list `[⟨"Apple", en⟩]`. -/
theorem C1_witness :
    (([⟨"Apple", some "en"⟩] : List Lit).find?
        (fun l => l.lang = some "en") = some ⟨"Apple", some "en"⟩) ∧
    selectLangLiteral (([⟨"Apple", some "en"⟩] : List Lit).map Node.lit) "en" =
      some (Node.lit ⟨"Apple", some "en"⟩) :=
  ⟨by decide, C1_exact_first [⟨"Apple", some "en"⟩] "en" ⟨"Apple", some "en"⟩
      (by decide) (by decide)⟩

/-- C2 — counterexample. With candidates `[⟨"a", fr⟩, ⟨"", no lang⟩]` and
requested language "en" no candidate is tagged "en" and a language-less
literal exists (the empty one, last encountered), yet the selector returns
the first candidate `⟨"a", fr⟩`: the empty-text language-less fallback is
falsy in the `or` chain. -/
theorem C2_counterexample :
    (∀ l ∈ ([⟨"a", some "fr"⟩, ⟨"", none⟩] : List Lit), l.lang ≠ some "en") ∧
    (([⟨"a", some "fr"⟩, ⟨"", none⟩] : List Lit).filter
        (fun l => l.lang = none) ≠ []) ∧
    selectLangLiteral (([⟨"a", some "fr"⟩, ⟨"", none⟩] : List Lit).map Node.lit) "en" =
      some (Node.lit ⟨"a", some "fr"⟩) ∧
    selectLangLiteral (([⟨"a", some "fr"⟩, ⟨"", none⟩] : List Lit).map Node.lit) "en" ≠
      some (Node.lit ⟨"", none⟩) := by
  refine ⟨by decide, by decide, by decide, by decide⟩

/-- C2 (amended): when no candidate is tagged exactly with the requested
language, the selector returns the last language-less literal provided its
text is non-empty; if the last language-less literal has empty text, or no
language-less literal exists, it returns the first candidate of the list
(whatever its language); for an empty list it returns no value. -/
theorem C2_fallback (lits : List Lit) (L : String)
    (h : ∀ l ∈ lits, l.lang ≠ some L) :
    selectLangLiteral (lits.map Node.lit) L =
      (match (lits.filter (fun l => l.lang = none)).getLast? with
       | some b => if b.text ≠ "" then some (Node.lit b) else lits.head?.map Node.lit
       | none => lits.head?.map Node.lit) := by
  unfold selectLangLiteral
  rw [selectLoop_no_exact L lits none h]
  cases hcase : (lits.filter (fun l => l.lang = none)).getLast? with
  | some b =>
    by_cases hb : b.text = ""
    · simp [pyOr, pyTruthy, hb, List.head?_map]
    · simp [pyOr, pyTruthy, hb]
  | none =>
    simp [pyOr, List.head?_map]

/-- C2 — witness of the amended theorem: a single "fr"-tagged candidate with
requested language "en" yields the first-candidate fallback. -/
theorem C2_witness :
    (∀ l ∈ ([⟨"x", some "fr"⟩] : List Lit), l.lang ≠ some "en") ∧
    selectLangLiteral (([⟨"x", some "fr"⟩] : List Lit).map Node.lit) "en" =
      some (Node.lit ⟨"x", some "fr"⟩) :=
  ⟨by decide, by rw [C2_fallback [⟨"x", some "fr"⟩] "en" (by decide)]; decide⟩

/-- C3 — counterexample. The claim lists "rdf-xml" among the supported
aliases for application/rdf+xml, but `serialize` only accepts "rdf/xml";
"rdf-xml" raises the unsupported-format error and yields no payload. -/
theorem C3_counterexample :
    serialize (fun _ _ => "") [] "rdf-xml" =
      Except.error "Unsupported format: rdf-xml" ∧
    (serialize (fun _ _ => "") [] "rdf-xml").isOk = false := by
  refine ⟨by decide, by decide⟩

/-- C3 (amended): `serialize` treats the format name case-insensitively; the
alias sets are {turtle, ttl} → text/turtle, {jsonld, json-ld} →
application/ld+json, {xml, rdf, rdfxml, rdf/xml} → application/rdf+xml,
{nt, ntriples, n-triples} → application/n-triples; every other name yields a
client error whose message contains the offending format string, with no
payload produced. -/
theorem C3_dispatch (ser : String → Graph → String) (g : Graph) (format : String) :
    (lowerStr format = "ttl" ∨ lowerStr format = "turtle" →
      serialize ser g format = Except.ok (ser "turtle" g, "text/turtle")) ∧
    (lowerStr format = "jsonld" ∨ lowerStr format = "json-ld" →
      serialize ser g format = Except.ok (ser "json-ld" g, "application/ld+json")) ∧
    (lowerStr format = "xml" ∨ lowerStr format = "rdf" ∨
        lowerStr format = "rdfxml" ∨ lowerStr format = "rdf/xml" →
      serialize ser g format = Except.ok (ser "xml" g, "application/rdf+xml")) ∧
    (lowerStr format = "nt" ∨ lowerStr format = "ntriples" ∨
        lowerStr format = "n-triples" →
      serialize ser g format = Except.ok (ser "nt" g, "application/n-triples")) ∧
    (¬(lowerStr format = "ttl" ∨ lowerStr format = "turtle") →
     ¬(lowerStr format = "jsonld" ∨ lowerStr format = "json-ld") →
     ¬(lowerStr format = "xml" ∨ lowerStr format = "rdf" ∨
         lowerStr format = "rdfxml" ∨ lowerStr format = "rdf/xml") →
     ¬(lowerStr format = "nt" ∨ lowerStr format = "ntriples" ∨
         lowerStr format = "n-triples") →
      serialize ser g format = Except.error ("Unsupported format: " ++ format) ∧
      strContainsSub ("Unsupported format: " ++ format) format = true) := by
  refine ⟨?_, ?_, ?_, ?_, ?_⟩
  · intro h
    unfold serialize
    rw [if_pos h]
  · intro h
    unfold serialize
    rw [if_neg ?_, if_pos h]
    rcases h with h | h <;> rw [h] <;> decide
  · intro h
    unfold serialize
    rw [if_neg ?_, if_neg ?_, if_pos h]
    · rcases h with h | h | h | h <;> rw [h] <;> decide
    · rcases h with h | h | h | h <;> rw [h] <;> decide
  · intro h
    unfold serialize
    rw [if_neg ?_, if_neg ?_, if_neg ?_, if_pos h]
    · rcases h with h | h | h <;> rw [h] <;> decide
    · rcases h with h | h | h <;> rw [h] <;> decide
    · rcases h with h | h | h <;> rw [h] <;> decide
  · intro h1 h2 h3 h4
    refine ⟨?_, ?_⟩
    · unfold serialize
      rw [if_neg h1, if_neg h2, if_neg h3, if_neg h4]
    · unfold strContainsSub
      refine List.any_eq_true.mpr ⟨("Unsupported format: ").data.length, ?_, ?_⟩
      · refine List.mem_range.mpr ?_
        rw [String.data_append, List.length_append]
        omega
      · rw [String.data_append, List.drop_left]
        exact List.isPrefixOf_iff_prefix.mpr (List.prefix_refl _)

/-- C3 — witness of the amended theorem: format name "TTL" (case-insensitive
alias of turtle). -/
theorem C3_witness :
    (lowerStr "TTL" = "ttl" ∨ lowerStr "TTL" = "turtle") ∧
    serialize (fun _ _ => "") [] "TTL" = Except.ok ("", "text/turtle") :=
  ⟨Or.inl (by decide),
   (C3_dispatch (fun _ _ => "") [] "TTL").1 (Or.inl (by decide))⟩

/- Helper lemmas about the search loop. -/

theorem searchLoop_length (g : Graph) (q lang : String) (lim : Nat) :
    ∀ (nodes : List Node) (count : Nat), count < lim →
      (searchLoop g q lang lim nodes count).length ≤ lim - count := by
  intro nodes
  induction nodes with
  | nil => intro count _; simp [searchLoop]
  | cons s rest ih =>
    intro count h
    unfold searchLoop
    split
    · split
      · simp only [List.length_cons, List.length_nil]
        omega
      · rename_i hge
        have := ih (count + 1) (by omega)
        simp only [List.length_cons]
        omega
    · split
      · simp only [List.length_nil]
        exact Nat.zero_le _
      · exact ih count h

theorem searchLoop_mem (g : Graph) (q lang : String) (lim : Nat) :
    ∀ (nodes : List Node) (count : Nat) (cs : ConceptSummary),
      cs ∈ searchLoop g q lang lim nodes count →
      ∃ s ∈ nodes, ∃ lbl, matchedLabel g s q lang = some lbl ∧
        cs = ⟨nodeStr s, some lbl, getBestDefinition g s lang⟩ := by
  intro nodes
  induction nodes with
  | nil => intro count cs h; simp [searchLoop] at h
  | cons s rest ih =>
    intro count cs h
    unfold searchLoop at h
    split at h
    · rename_i lbl hm
      split at h
      · have hcs : cs = ⟨nodeStr s, some lbl, getBestDefinition g s lang⟩ := by
          simpa using h
        exact ⟨s, List.mem_cons_self s rest, lbl, hm, hcs⟩
      · rcases List.mem_cons.mp h with hc | hc
        · exact ⟨s, List.mem_cons_self s rest, lbl, hm, hc⟩
        · obtain ⟨s', hs', lbl', hm', hcs⟩ := ih (count + 1) cs hc
          exact ⟨s', List.mem_cons_of_mem s hs', lbl', hm', hcs⟩
    · split at h
      · simp at h
      · obtain ⟨s', hs', lbl', hm', hcs⟩ := ih count cs h
        exact ⟨s', List.mem_cons_of_mem s hs', lbl', hm', hcs⟩

theorem strContainsSub_empty_needle (hay : String) :
    strContainsSub hay "" = true := by
  unfold strContainsSub
  refine List.any_eq_true.mpr ⟨0, List.mem_range.mpr (Nat.succ_pos _), ?_⟩
  have h0 : ("" : String).data = [] := rfl
  rw [h0]
  exact List.isPrefixOf_iff_prefix.mpr List.nil_prefix

/-- C4 — counterexample. With `limit = 0` the claim promises at most zero
results, but on a graph holding one matching concept `search_concepts`
appends the first match before testing `len(results) >= limit`, so one
result is returned. -/
theorem C4_counterexample :
    (searchConcepts
        [⟨Node.uri "c", rdfType, Node.uri skosConcept⟩,
         ⟨Node.uri "c", skosPrefLabel, Node.lit ⟨"a", none⟩⟩]
        "a" 0 "en").length = 1 ∧ ¬((1 : Nat) ≤ 0) := by
  refine ⟨by decide, by decide⟩

/-- C4 (amended): for every limit ≥ 1, `search_concepts` returns at most
`limit` results (with limit = 0 one result may still be returned); every
returned summary comes from a skos:Concept subject having a pref/alt label
literal whose language is unset or equal to the requested language and whose
lowercased text contains the lowercased query; and the empty query matches
every concept that has at least one such candidate literal. -/
theorem C4_search_bounds (g : Graph) (q : String) (lim : Nat) (lang : String)
    (hlim : 1 ≤ lim) :
    (searchConcepts g q lim lang).length ≤ lim ∧
    (∀ cs ∈ searchConcepts g q lim lang,
      ∃ s ∈ subjects g rdfType (Node.uri skosConcept),
        cs.iri = nodeStr s ∧
        ∃ l ∈ candLits g s, (l.lang = none ∨ l.lang = some lang) ∧
          strContainsSub (lowerStr l.text) (lowerStr q) = true) ∧
    (q = "" → ∀ s : Node,
      (∃ l ∈ candLits g s, l.lang = none ∨ l.lang = some lang) →
      matchedLabel g s q lang ≠ none) := by
  refine ⟨?_, ?_, ?_⟩
  · have := searchLoop_length g q lang lim
      (subjects g rdfType (Node.uri skosConcept)) 0 (by omega)
    unfold searchConcepts
    omega
  · intro cs hcs
    obtain ⟨s, hs, lbl, hm, hcseq⟩ :=
      searchLoop_mem g q lang lim (subjects g rdfType (Node.uri skosConcept)) 0 cs hcs
    refine ⟨s, hs, by rw [hcseq], ?_⟩
    unfold matchedLabel at hm
    cases hfind : (candLits g s).find? (labelMatches lang (lowerStr q)) with
    | none => rw [hfind] at hm; simp at hm
    | some l =>
      have hmem := List.mem_of_find?_eq_some hfind
      have hp := List.find?_some hfind
      unfold labelMatches at hp
      rw [Bool.and_eq_true] at hp
      exact ⟨l, hmem, by simpa using hp.1, hp.2⟩
  · intro hq s hex
    obtain ⟨l, hl, hlang⟩ := hex
    have hmatch : labelMatches lang (lowerStr q) l = true := by
      unfold labelMatches
      rw [Bool.and_eq_true]
      refine ⟨by simpa using hlang, ?_⟩
      rw [hq]
      exact strContainsSub_empty_needle (lowerStr l.text)
    have : ((candLits g s).find? (labelMatches lang (lowerStr q))).isSome :=
      List.find?_isSome.mpr ⟨l, hl, hmatch⟩
    unfold matchedLabel
    cases hfind : (candLits g s).find? (labelMatches lang (lowerStr q)) with
    | none => rw [hfind] at this; simp at this
    | some x => simp

/-- C4 — witness of the amended theorem on a one-concept graph with limit 1. -/
theorem C4_witness :
    (1 : Nat) ≤ 1 ∧
    (searchConcepts
        [⟨Node.uri "c", rdfType, Node.uri skosConcept⟩,
         ⟨Node.uri "c", skosPrefLabel, Node.lit ⟨"a", none⟩⟩]
        "a" 1 "en").length ≤ 1 :=
  ⟨by decide,
   (C4_search_bounds
      [⟨Node.uri "c", rdfType, Node.uri skosConcept⟩,
       ⟨Node.uri "c", skosPrefLabel, Node.lit ⟨"a", none⟩⟩]
      "a" 1 "en" (by decide)).1⟩

/-- C5 — counterexample. A concept with prefLabel "A"@en and altLabel "B"@en
searched for "b": the produced summary carries pref_label "B" (the matched
altLabel), while the §4.2 selector over the concept's prefLabel literals
yields "A". -/
theorem C5_counterexample :
    searchConcepts
        [⟨Node.uri "c", rdfType, Node.uri skosConcept⟩,
         ⟨Node.uri "c", skosPrefLabel, Node.lit ⟨"A", some "en"⟩⟩,
         ⟨Node.uri "c", skosAltLabel, Node.lit ⟨"B", some "en"⟩⟩]
        "b" 50 "en" = [⟨"c", some "B", none⟩] ∧
    getBestLabel
        [⟨Node.uri "c", rdfType, Node.uri skosConcept⟩,
         ⟨Node.uri "c", skosPrefLabel, Node.lit ⟨"A", some "en"⟩⟩,
         ⟨Node.uri "c", skosAltLabel, Node.lit ⟨"B", some "en"⟩⟩]
        (Node.uri "c") "en" = some "A" ∧
    (some "B" : Option String) ≠ some "A" := by
  refine ⟨by decide, by decide, by decide⟩

/-- C5 (amended): every summary of `list_concepts` carries the §4.2
selector's best prefLabel and best definition; every summary of
`search_concepts` carries the first matching pref/alt label (possibly an
altLabel) as its pref_label, and the selector's best definition. -/
theorem C5_summary_fields (g : Graph) (q lang : String) (lim off : Nat) :
    (∀ cs ∈ (listConcepts g lim off lang).1,
      ∃ s ∈ subjects g rdfType (Node.uri skosConcept),
        cs = ⟨nodeStr s, getBestLabel g s lang, getBestDefinition g s lang⟩) ∧
    (∀ cs ∈ searchConcepts g q lim lang,
      ∃ s ∈ subjects g rdfType (Node.uri skosConcept),
        cs = ⟨nodeStr s, matchedLabel g s q lang, getBestDefinition g s lang⟩) := by
  constructor
  · intro cs hcs
    unfold listConcepts at hcs
    obtain ⟨s, hs, hcseq⟩ := List.mem_map.mp hcs
    refine ⟨s, ?_, ?_⟩
    · exact List.drop_subset _ _ (List.take_subset _ _ hs)
    · rw [← hcseq]; rfl
  · intro cs hcs
    obtain ⟨s, hs, lbl, hm, hcseq⟩ :=
      searchLoop_mem g q lang lim (subjects g rdfType (Node.uri skosConcept)) 0 cs hcs
    exact ⟨s, hs, by rw [hcseq, hm]⟩

/-- C5 — witness of the amended theorem: the search summary of the
"A"/"B"-labelled concept comes from a concept subject and carries the
matched label and best definition. -/
theorem C5_witness :
    (⟨"c", some "B", none⟩ : ConceptSummary) ∈
      searchConcepts
        [⟨Node.uri "c", rdfType, Node.uri skosConcept⟩,
         ⟨Node.uri "c", skosPrefLabel, Node.lit ⟨"A", some "en"⟩⟩,
         ⟨Node.uri "c", skosAltLabel, Node.lit ⟨"B", some "en"⟩⟩]
        "b" 50 "en" ∧
    ∃ s ∈ subjects
        [⟨Node.uri "c", rdfType, Node.uri skosConcept⟩,
         ⟨Node.uri "c", skosPrefLabel, Node.lit ⟨"A", some "en"⟩⟩,
         ⟨Node.uri "c", skosAltLabel, Node.lit ⟨"B", some "en"⟩⟩]
        rdfType (Node.uri skosConcept),
      (⟨"c", some "B", none⟩ : ConceptSummary) =
        ⟨nodeStr s,
         matchedLabel
           [⟨Node.uri "c", rdfType, Node.uri skosConcept⟩,
            ⟨Node.uri "c", skosPrefLabel, Node.lit ⟨"A", some "en"⟩⟩,
            ⟨Node.uri "c", skosAltLabel, Node.lit ⟨"B", some "en"⟩⟩]
           s "b" "en",
         getBestDefinition
           [⟨Node.uri "c", rdfType, Node.uri skosConcept⟩,
            ⟨Node.uri "c", skosPrefLabel, Node.lit ⟨"A", some "en"⟩⟩,
            ⟨Node.uri "c", skosAltLabel, Node.lit ⟨"B", some "en"⟩⟩]
           s "en"⟩ :=
  ⟨by decide,
   (C5_summary_fields
      [⟨Node.uri "c", rdfType, Node.uri skosConcept⟩,
       ⟨Node.uri "c", skosPrefLabel, Node.lit ⟨"A", some "en"⟩⟩,
       ⟨Node.uri "c", skosAltLabel, Node.lit ⟨"B", some "en"⟩⟩]
      "b" "en" 50 0).2 ⟨"c", some "B", none⟩ (by decide)⟩

/-- C6 — counterexample. A reload against a malformed file: `reload` clears
the snapshot and the recorded timestamp before re-parsing, so after the parse
error propagates the previously valid snapshot is gone, contradicting the
claim that it remains the current graph. -/
theorem C6_counterexample :
    reload ⟨some 5, Except.error "boom"⟩
        ⟨some [⟨Node.uri "c", rdfType, Node.uri skosConcept⟩], some 3⟩ =
      (Except.error "boom", (⟨none, none⟩ : LoadState)) ∧
    (⟨none, none⟩ : LoadState).graph ≠
      some [⟨Node.uri "c", rdfType, Node.uri skosConcept⟩] := by
  refine ⟨by decide, by decide⟩

/-- C6 (amended): a parse error against a malformed existing file propagates
to the caller and installs no new snapshot on either path; on the
`ensureLoaded` timestamp path the prior state (including a previously valid
snapshot) remains unchanged, whereas `reload` discards the prior snapshot
before re-parsing, so a failed reload leaves the service unloaded. -/
theorem C6_parse_error (fs : FileSys) (s : LoadState) (e : String)
    (herr : fs.parseResult = Except.error e) (hm : fs.mtime.isSome) :
    (¬(s.graph.isSome ∧ s.lastMtime = fs.mtime) →
      ensureLoaded fs s = (Except.error e, s)) ∧
    reload fs s = (Except.error e, (⟨none, none⟩ : LoadState)) := by
  obtain ⟨m, hmeq⟩ := Option.isSome_iff_exists.mp hm
  constructor
  · intro hno
    unfold ensureLoaded
    rw [if_neg hno, hmeq, herr]
  · unfold reload ensureLoaded
    rw [hmeq, herr]
    simp

/-- C6 — witness of the amended theorem at a concrete malformed-file load. -/
theorem C6_witness :
    ensureLoaded ⟨some 5, Except.error "boom"⟩
        ⟨some [⟨Node.uri "c", rdfType, Node.uri skosConcept⟩], some 3⟩ =
      (Except.error "boom",
       (⟨some [⟨Node.uri "c", rdfType, Node.uri skosConcept⟩], some 3⟩ : LoadState)) ∧
    reload ⟨some 5, Except.error "boom"⟩
        ⟨some [⟨Node.uri "c", rdfType, Node.uri skosConcept⟩], some 3⟩ =
      (Except.error "boom", (⟨none, none⟩ : LoadState)) :=
  ⟨(C6_parse_error ⟨some 5, Except.error "boom"⟩
      ⟨some [⟨Node.uri "c", rdfType, Node.uri skosConcept⟩], some 3⟩ "boom"
      (by decide) (by decide)).1 (by decide),
   (C6_parse_error ⟨some 5, Except.error "boom"⟩
      ⟨some [⟨Node.uri "c", rdfType, Node.uri skosConcept⟩], some 3⟩ "boom"
      (by decide) (by decide)).2⟩

/-- C7: when the source file does not exist, `ensureLoaded` does not raise;
it installs (or keeps) the empty graph with the timestamp recorded as
absent, and the query operations over the empty vocabulary succeed with
empty results. The hypothesis `hinv` is the reachable-state invariant that a
snapshot recorded under an absent timestamp is the empty graph. -/
theorem C7_missing_file (fs : FileSys) (s : LoadState) (lim off : Nat)
    (q lang : String) (hm : fs.mtime = none)
    (hinv : s.lastMtime = none → s.graph.isSome → s.graph = some ([] : Graph)) :
    ensureLoaded fs s = (Except.ok (), (⟨some ([] : Graph), none⟩ : LoadState)) ∧
    listConcepts ([] : Graph) lim off lang = ([], 0) ∧
    searchConcepts ([] : Graph) q lim lang = [] := by
  refine ⟨?_, ?_, ?_⟩
  · by_cases hc : s.graph.isSome ∧ s.lastMtime = fs.mtime
    · obtain ⟨hg, hl⟩ := hc
      rw [hm] at hl
      have hgr := hinv hl hg
      unfold ensureLoaded
      rw [if_pos ⟨hg, by rw [hl, hm]⟩]
      cases s with
      | mk gr lm =>
        simp only at hgr hl
        rw [hgr, hl]
    · unfold ensureLoaded
      rw [if_neg hc, hm]
  · simp [listConcepts, subjects]
  · simp [searchConcepts, subjects, searchLoop]

/-- C7 — witness at a fresh (unloaded) service and an absent file. -/
theorem C7_witness :
    ensureLoaded ⟨none, Except.ok []⟩ ⟨none, none⟩ =
      (Except.ok (), (⟨some ([] : Graph), none⟩ : LoadState)) ∧
    listConcepts ([] : Graph) 1 0 "en" = ([], 0) :=
  ⟨(C7_missing_file ⟨none, Except.ok []⟩ ⟨none, none⟩ 1 0 "a" "en"
      (by decide) (by decide)).1,
   (C7_missing_file ⟨none, Except.ok []⟩ ⟨none, none⟩ 1 0 "a" "en"
      (by decide) (by decide)).2.1⟩

/- Helper lemmas for pagination. -/

theorem chunk_flatten {α : Type} (lim : Nat) (hlim : 1 ≤ lim) :
    ∀ (n : Nat) (l : List α), l.length ≤ n * lim →
      ((List.range n).map (fun k => (l.drop (k * lim)).take lim)).flatten = l := by
  intro n
  induction n with
  | zero =>
    intro l h
    have hl : l = [] := List.eq_nil_of_length_eq_zero (by omega)
    simp [hl]
  | succ n ih =>
    intro l h
    rw [List.range_succ_eq_map, List.map_cons, List.map_map, List.flatten_cons]
    have hcomp : ((fun k => (l.drop (k * lim)).take lim) ∘ Nat.succ) =
        (fun k => (((l.drop lim).drop (k * lim)).take lim)) := by
      funext k
      simp only [Function.comp_apply, Nat.succ_eq_add_one, List.drop_drop]
      congr 2
      ring
    rw [hcomp]
    rw [ih (l.drop lim) (by
      rw [List.length_drop]
      have : (n + 1) * lim = n * lim + lim := by ring
      omega)]
    simp only [Nat.zero_mul, List.drop_zero]
    exact List.take_append_drop lim l

theorem subjects_nodup (g : Graph) (p : String) (o : Node) (h : g.Nodup) :
    (subjects g p o).Nodup := by
  unfold subjects
  refine List.Nodup.filterMap ?_ h
  intro t1 t2 b hb1 hb2
  by_cases h1 : t1.pred = p ∧ t1.obj = o
  · by_cases h2 : t2.pred = p ∧ t2.obj = o
    · rw [if_pos h1] at hb1
      rw [if_pos h2] at hb2
      simp only [Option.mem_def, Option.some.injEq] at hb1 hb2
      cases t1
      cases t2
      simp_all
    · rw [if_neg h2] at hb2
      simp at hb2
  · rw [if_neg h1] at hb1
    simp at hb1

/-- C8: for every duplicate-free graph snapshot and limit ≥ 1, `listConcepts`
reports the full pre-pagination concept count as total, each page is the
summarized sub-sequence `[offset, offset + limit)` of the concept
enumeration, the enumeration has no duplicates, and concatenating the pages
at offsets 0, limit, 2·limit, … (any number of pages covering the length)
reconstructs the summarized enumeration with no omissions. -/
theorem C8_pagination (g : Graph) (lim : Nat) (lang : String)
    (hg : g.Nodup) (hlim : 1 ≤ lim) :
    (∀ off, (listConcepts g lim off lang).2 =
        (subjects g rdfType (Node.uri skosConcept)).length) ∧
    (∀ off, (listConcepts g lim off lang).1 =
        (((subjects g rdfType (Node.uri skosConcept)).drop off).take lim).map
          (summarize g lang)) ∧
    (subjects g rdfType (Node.uri skosConcept)).Nodup ∧
    (∀ n, (subjects g rdfType (Node.uri skosConcept)).length ≤ n * lim →
      ((List.range n).map (fun k => (listConcepts g lim (k * lim) lang).1)).flatten =
        (subjects g rdfType (Node.uri skosConcept)).map (summarize g lang)) := by
  refine ⟨fun _ => rfl, fun _ => rfl, subjects_nodup g _ _ hg, ?_⟩
  intro n hn
  have hpage : (fun k => (listConcepts g lim (k * lim) lang).1) =
      (List.map (summarize g lang)) ∘
        (fun k => (((subjects g rdfType (Node.uri skosConcept)).drop (k * lim)).take lim)) :=
    rfl
  rw [hpage, ← List.map_map, ← List.map_flatten, chunk_flatten lim hlim n _ hn]

/-- C8 — witness on a two-concept graph with page size 1. -/
theorem C8_witness :
    (listConcepts
        [⟨Node.uri "a", rdfType, Node.uri skosConcept⟩,
         ⟨Node.uri "b", rdfType, Node.uri skosConcept⟩] 1 0 "en").2 =
      (subjects
        [⟨Node.uri "a", rdfType, Node.uri skosConcept⟩,
         ⟨Node.uri "b", rdfType, Node.uri skosConcept⟩]
        rdfType (Node.uri skosConcept)).length ∧
    (subjects
        [⟨Node.uri "a", rdfType, Node.uri skosConcept⟩,
         ⟨Node.uri "b", rdfType, Node.uri skosConcept⟩]
        rdfType (Node.uri skosConcept)).Nodup :=
  ⟨(C8_pagination
      [⟨Node.uri "a", rdfType, Node.uri skosConcept⟩,
       ⟨Node.uri "b", rdfType, Node.uri skosConcept⟩] 1 "en"
      (by decide) (by decide)).1 0,
   (C8_pagination
      [⟨Node.uri "a", rdfType, Node.uri skosConcept⟩,
       ⟨Node.uri "b", rdfType, Node.uri skosConcept⟩] 1 "en"
      (by decide) (by decide)).2.2.1⟩

/- Helper lemmas for the import tool. -/

theorem mem_addT (g : Graph) (t0 t : Triple) :
    t ∈ addT g t0 ↔ t ∈ g ∨ t = t0 := by
  unfold addT
  by_cases hmem : t0 ∈ g
  · rw [if_pos hmem]
    constructor
    · exact fun h => Or.inl h
    · rintro (h | rfl)
      · exact h
      · exact hmem
  · rw [if_neg hmem]
    simp [List.mem_append]

theorem mem_foldl_addT : ∀ (ts : List Triple) (g : Graph) (t : Triple),
    t ∈ ts.foldl addT g ↔ t ∈ g ∨ t ∈ ts := by
  intro ts
  induction ts with
  | nil => intro g t; simp
  | cons t0 rest ih =>
    intro g t
    simp only [List.foldl_cons]
    rw [ih, mem_addT, List.mem_cons]
    tauto

/-- C9: a CSV row whose label cell (the `prefLabel`/`label`/`term` chain) is
non-empty after trimming adds to the graph exactly the triples typing the
concept IRI `{base}/concept/{slug}` as skos:Concept, linking it to the scheme
via skos:inScheme, giving it one prefLabel, one definition when the
`definition`/`desc` cell is non-empty, and one altLabel per non-empty
pipe-separated segment of the `altLabel`/`alt` cell; a row with an empty
label is skipped without error. -/
theorem C9_row_import (base lang : String) (g : Graph) (row : Row) :
    (labelOf row = "" → processRow base lang g row = g) ∧
    (labelOf row ≠ "" → ∀ t : Triple,
      t ∈ processRow base lang g row ↔
        t ∈ g ∨
        t = ⟨Node.uri (conceptIriOf base row), rdfType, Node.uri skosConcept⟩ ∨
        t = ⟨Node.uri (conceptIriOf base row), skosInScheme,
             Node.uri (schemeIriOf base)⟩ ∨
        t = ⟨Node.uri (conceptIriOf base row), skosPrefLabel,
             Node.lit ⟨labelOf row, some lang⟩⟩ ∨
        (defnOf row ≠ "" ∧
          t = ⟨Node.uri (conceptIriOf base row), skosDefinition,
               Node.lit ⟨defnOf row, some lang⟩⟩) ∨
        (∃ a ∈ altSegments row,
          t = ⟨Node.uri (conceptIriOf base row), skosAltLabel,
               Node.lit ⟨a, some lang⟩⟩)) := by
  constructor
  · intro h
    unfold processRow
    rw [if_pos h]
  · intro h t
    unfold processRow
    rw [if_neg h, mem_foldl_addT]
    have hiff : t ∈ rowTriples base lang row ↔
        (t = ⟨Node.uri (conceptIriOf base row), rdfType, Node.uri skosConcept⟩ ∨
         t = ⟨Node.uri (conceptIriOf base row), skosInScheme,
              Node.uri (schemeIriOf base)⟩ ∨
         t = ⟨Node.uri (conceptIriOf base row), skosPrefLabel,
              Node.lit ⟨labelOf row, some lang⟩⟩ ∨
         (defnOf row ≠ "" ∧
           t = ⟨Node.uri (conceptIriOf base row), skosDefinition,
                Node.lit ⟨defnOf row, some lang⟩⟩) ∨
         (∃ a ∈ altSegments row,
           t = ⟨Node.uri (conceptIriOf base row), skosAltLabel,
                Node.lit ⟨a, some lang⟩⟩)) := by
      unfold rowTriples
      by_cases hd : defnOf row = ""
      · rw [if_pos hd]
        simp only [List.append_nil, List.mem_append, List.mem_cons,
          List.not_mem_nil, or_false, List.mem_map]
        constructor
        · rintro ((rfl | rfl | rfl) | ⟨a, ha, rfl⟩)
          · exact Or.inl rfl
          · exact Or.inr (Or.inl rfl)
          · exact Or.inr (Or.inr (Or.inl rfl))
          · exact Or.inr (Or.inr (Or.inr (Or.inr ⟨a, ha, rfl⟩)))
        · rintro (rfl | rfl | rfl | ⟨hne, _⟩ | ⟨a, ha, rfl⟩)
          · exact Or.inl (Or.inl rfl)
          · exact Or.inl (Or.inr (Or.inl rfl))
          · exact Or.inl (Or.inr (Or.inr rfl))
          · exact absurd hd hne
          · exact Or.inr ⟨a, ha, rfl⟩
      · rw [if_neg hd]
        simp only [List.mem_append, List.mem_cons, List.not_mem_nil, or_false,
          List.mem_map]
        constructor
        · rintro (((rfl | rfl | rfl) | rfl) | ⟨a, ha, rfl⟩)
          · exact Or.inl rfl
          · exact Or.inr (Or.inl rfl)
          · exact Or.inr (Or.inr (Or.inl rfl))
          · exact Or.inr (Or.inr (Or.inr (Or.inl ⟨hd, rfl⟩)))
          · exact Or.inr (Or.inr (Or.inr (Or.inr ⟨a, ha, rfl⟩)))
        · rintro (rfl | rfl | rfl | ⟨_, rfl⟩ | ⟨a, ha, rfl⟩)
          · exact Or.inl (Or.inl (Or.inl rfl))
          · exact Or.inl (Or.inl (Or.inr (Or.inl rfl)))
          · exact Or.inl (Or.inl (Or.inr (Or.inr rfl)))
          · exact Or.inl (Or.inr rfl)
          · exact Or.inr ⟨a, ha, rfl⟩
    rw [hiff]

/-- C9 — witness: the spec's scenario row (prefLabel "Sensorial Materials",
a definition, two pipe-separated altLabels) is valid and produces, among
others, the second altLabel triple on the slugged concept IRI. -/
theorem C9_witness :
    labelOf ⟨some "Sensorial Materials", none, none, none,
      some "Materials engaging the senses", none,
      some "Sensory Materials|Sensorial Tools", none⟩ ≠ "" ∧
    (⟨Node.uri "https://vocabulary.montessoriglossary.org/concept/sensorial-materials",
      skosAltLabel, Node.lit ⟨"Sensorial Tools", some "en"⟩⟩ : Triple) ∈
      processRow "https://vocabulary.montessoriglossary.org/" "en" []
        ⟨some "Sensorial Materials", none, none, none,
         some "Materials engaging the senses", none,
         some "Sensory Materials|Sensorial Tools", none⟩ :=
  ⟨by decide,
   ((C9_row_import "https://vocabulary.montessoriglossary.org/" "en" []
      ⟨some "Sensorial Materials", none, none, none,
       some "Materials engaging the senses", none,
       some "Sensory Materials|Sensorial Tools", none⟩).2 (by decide)
      ⟨Node.uri "https://vocabulary.montessoriglossary.org/concept/sensorial-materials",
       skosAltLabel, Node.lit ⟨"Sensorial Tools", some "en"⟩⟩).mpr
    (Or.inr (Or.inr (Or.inr (Or.inr (Or.inr
      ⟨"Sensorial Tools", by decide, by decide⟩)))))⟩

/-- C10: rows with equal slugs mint the same concept IRI, so their labels,
definitions and altLabels merge onto one concept node in the set-semantics
graph; the reported concept count counts distinct concept IRIs and on the
two-row "Casa"/"casa" import is 1, strictly smaller than the 2 valid rows,
while both rows' definitions sit on the single merged concept. -/
theorem C10_slug_merge :
    (∀ (base : String) (r1 r2 : Row), slugOf r1 = slugOf r2 →
      conceptIriOf base r1 = conceptIriOf base r2) ∧
    conceptCount (importCsv
      [⟨some "Casa", none, none, none, some "d1", none, none, none⟩,
       ⟨some "casa", none, none, none, some "d2", none, none, none⟩]
      "https://v.org/" "en") = 1 ∧
    ([(⟨some "Casa", none, none, none, some "d1", none, none, none⟩ : Row),
      ⟨some "casa", none, none, none, some "d2", none, none, none⟩]).length = 2 ∧
    (1 : Nat) < 2 ∧
    (⟨Node.uri "https://v.org/concept/casa", skosDefinition,
      Node.lit ⟨"d1", some "en"⟩⟩ : Triple) ∈ importCsv
      [⟨some "Casa", none, none, none, some "d1", none, none, none⟩,
       ⟨some "casa", none, none, none, some "d2", none, none, none⟩]
      "https://v.org/" "en" ∧
    (⟨Node.uri "https://v.org/concept/casa", skosDefinition,
      Node.lit ⟨"d2", some "en"⟩⟩ : Triple) ∈ importCsv
      [⟨some "Casa", none, none, none, some "d1", none, none, none⟩,
       ⟨some "casa", none, none, none, some "d2", none, none, none⟩]
      "https://v.org/" "en" := by
  refine ⟨?_, by decide, by decide, by decide, by decide, by decide⟩
  intro base r1 r2 h
  unfold conceptIriOf
  rw [h]

/-- C10 — witness: two rows whose labels slugify identically receive the
same concept IRI. -/
theorem C10_witness :
    slugOf (⟨some "Casa", none, none, none, some "d1", none, none, none⟩ : Row) =
      slugOf (⟨some "CASA", none, none, none, none, none, none, none⟩ : Row) ∧
    conceptIriOf "https://v.org/"
        (⟨some "Casa", none, none, none, some "d1", none, none, none⟩ : Row) =
      conceptIriOf "https://v.org/"
        (⟨some "CASA", none, none, none, none, none, none, none⟩ : Row) :=
  ⟨by decide,
   C10_slug_merge.1 "https://v.org/"
     ⟨some "Casa", none, none, none, some "d1", none, none, none⟩
     ⟨some "CASA", none, none, none, none, none, none, none⟩ (by decide)⟩

end SkosApp
